import Mathlib

/-!
A shallow embedding of `DistanceEst` (src/DistanceEst/DistanceEst.cpp),
the ABySS tool that estimates distances between contigs from paired-end
alignments, together with theorems checking the natural-language
specification against the code.

Machine integers are modelled over unbounded `Int`/`Nat`; the sentinel
`INT_MIN` returned by the estimator is modelled explicitly as the value
of a 32-bit `INT_MIN`.  External collaborators of the translation unit
(`Histogram.h`, `PDF.h`, `MLE.h`, `SAM.h` accessors, the contig-id
registry) are modelled from the specification where the claims need
them; every such definition is marked `Modelled from the spec`.
-/

namespace DistanceEst

/-- The value of 32-bit `INT_MIN`, the invalid-distance sentinel returned by
`estimateDistance` (DistanceEst.cpp line 126). -/
def intMin : Int := -2147483648

/-- The value of 32-bit `INT_MAX`, used as the upper bound of the
histogram range count in `main` (DistanceEst.cpp line 354). -/
def intMax : Int := 2147483647

/-- One alignment record of the stream, with the fields and flag accessors of
`SAMRecord` that DistanceEst.cpp reads.  Contig names are modelled by their
small-integer ids of the (external, frozen) contig-id registry, so `rname`
and `mrnm` are the anchor and mate contig ids. -/
structure SAMRecord where
  rname : Nat
  mrnm : Nat
  mapq : Nat
  isPaired : Bool
  isUnmapped : Bool
  isMateUnmapped : Bool
  isReverse : Bool
  isMateReverse : Bool
  targetAtQueryStart : Int
  mateTargetAtQueryStart : Int
deriving DecidableEq

/-- A contig id together with an orientation bit, as `ContigNode`. -/
structure ContigNode where
  id : Nat
  sense : Bool
deriving DecidableEq

/-- Reverse the sense of a `ContigNode`, as `ContigNode::flip`. -/
def ContigNode.flip (v : ContigNode) : ContigNode :=
  { v with sense := !v.sense }

/-- The numeric index of a `ContigNode` (`2 * id + sense`), which is the order
in which `std::map` keyed by `ContigNode` iterates. -/
def ContigNode.index (v : ContigNode) : Nat :=
  2 * v.id + (if v.sense then 1 else 0)

/-- The configuration surface of the run: the members of `namespace opt`
that the modelled code consults. -/
structure Config where
  k : Nat
  npairs : Nat
  seedLen : Nat
  minMapQ : Nat
  rf : Bool
  dot : Bool
  verbose : Nat

/-- Modelled from the spec: the empirical probability-density abstraction
(`PDF.h` is external to the source file).  Only the two members that
DistanceEst.cpp uses are modelled: the maximum observed bin index
`getMaxIdx` and the sample standard deviation `getSampleStdDev`, a
real-valued function of the sample count modelled over `Rat`. -/
structure PDF where
  maxIdx : Nat
  sampleStdDev : Nat → Rat

/-- Modelled from the spec: the type of the external maximum-likelihood
search `maximumLikelihoodEstimate` (`MLE.h`).  Its arguments are, in
order, the first and last candidate distances of the search window, the
fragment sizes, the empirical distribution, the two contig lengths and
the incoming pair count; it returns the estimated distance together with
the number of fragment observations that agree with the expected
distribution (the by-reference out-parameter `n`). -/
abbrev MLEFn := Int → Nat → List Int → PDF → Nat → Nat → Nat → Int × Nat

/-- Modelled from the spec: the sentinel returned by the external
maximum-likelihood search when it finds no valid maximum — no distance
(`INT_MIN`) and zero agreeing fragment observations. -/
def noValidMaximum : Int × Nat := (intMin, 0)

/-- The Fragment Model: the body of the conversion loop of
`estimateDistance` (DistanceEst.cpp lines 109-117).  Converts one
alignment record into a provisional fragment interval, assuming the two
contigs are laid end to end with no gap. -/
def toFragment (rf : Bool) (len0 len1 : Nat) (r : SAMRecord) : Int × Int :=
  let a0 : Int := r.targetAtQueryStart
  let a1 : Int := r.mateTargetAtQueryStart
  let a0 : Int := if r.isReverse then (len0 : Int) - a0 else a0
  let a1 : Int := if !r.isMateReverse then (len1 : Int) - a1 else a1
  if rf then (a1, (len1 : Int) + a0) else (a0, (len0 : Int) + a1)

/-- The fragment list built by `estimateDistance` (lines 104-118): the
Fragment Model applied to every record of the group. -/
def fragmentsOf (rf : Bool) (len0 len1 : Nat) (pairs : List SAMRecord) :
    List (Int × Int) :=
  pairs.map (toFragment rf len0 len1)

/-- The strict-weak order `operator<` on `std::pair<int, int>`, reflexively
closed: lexicographic comparison of fragment intervals, used by
`std::sort` at line 121. -/
def fragLe (a b : Int × Int) : Prop :=
  a.1 < b.1 ∨ (a.1 = b.1 ∧ a.2 ≤ b.2)

instance : DecidableRel fragLe := by
  intro a b
  unfold fragLe
  infer_instance

instance : IsTotal (Int × Int) fragLe := by
  constructor
  intro a b
  unfold fragLe
  omega

instance : IsTrans (Int × Int) fragLe := by
  constructor
  intro a b c
  unfold fragLe
  omega

/-- Duplicate removal of `estimateDistance` (lines 120-123): sort the
fragment list, then erase adjacent equal entries, as
`sort` followed by `erase(unique(...))`.  Because `fragLe` is a total,
transitive and antisymmetric order on pairs, the sorted list is the same
for any sorting algorithm, so `insertionSort` models `std::sort`
faithfully here. -/
def dedup (l : List (Int × Int)) : List (Int × Int) :=
  (List.insertionSort fragLe l).destutter (fun a b => a ≠ b)

/-- `estimateDistance` (lines 98-136): convert the group to fragments,
deduplicate, check the minimum-pairs threshold, and otherwise hand the
fragment sizes to the external maximum-likelihood search `mle`.  The
result pairs the returned distance with the final value of the `numPairs`
out-parameter. -/
def estimateDistance (cfg : Config) (mle : MLEFn) (len0 len1 : Nat)
    (pairs : List SAMRecord) (pdf : PDF) : Int × Nat :=
  let fragments := dedup (fragmentsOf cfg.rf len0 len1 pairs)
  let numPairs := fragments.length
  if numPairs < cfg.npairs then (intMin, numPairs)
  else
    let fragmentSizes := fragments.map (fun p => p.2 - p.1)
    mle (-(cfg.k : Int) + 1) pdf.maxIdx fragmentSizes pdf len0 len1 numPairs

/-- The result record `Estimate` (from `Estimate.h`): the linked contig,
the estimated distance, the agreeing-pair count, and the standard
deviation. -/
structure Estimate where
  contig : ContigNode
  distance : Int
  numPairs : Nat
  stdDev : Rat
deriving DecidableEq

/-- The content of the non-fatal warning that `writeEstimate` prints to the
diagnostic stream at verbosity above 1 (lines 160-164): the two contig
identities, the agreeing-pair count and the raw pair count. -/
structure Warning where
  id0 : ContigNode
  id1 : ContigNode
  numPairs : Nat
  rawPairs : Nat
deriving DecidableEq

/-- `writeEstimate` (lines 138-166) as a pure function: the first component
is the estimate written to the primary output (`none` when the link is
omitted), the second the warning written to the diagnostic stream. -/
def writeEstimate (cfg : Config) (mle : MLEFn) (id0 id1 : ContigNode)
    (len0 len1 : Nat) (pairs : List SAMRecord) (pdf : PDF) :
    Option Estimate × Option Warning :=
  if pairs.length < cfg.npairs then (none, none)
  else
    let r := estimateDistance cfg mle len0 len1 pairs pdf
    let est : Estimate :=
      { contig := id1, distance := r.1, numPairs := r.2
        stdDev := pdf.sampleStdDev r.2 }
    if cfg.npairs ≤ est.numPairs then
      (some (if cfg.dot && id0.sense then { est with contig := est.contig.flip }
             else est), none)
    else if 1 < cfg.verbose then
      (none, some { id0 := id0, id1 := id1, numPairs := est.numPairs
                    rawPairs := pairs.length })
    else (none, none)

/-- The `std::map` key under which `writeEstimates` files a record
(lines 188-189): the mate contig id paired with the relative sense. -/
def keyOf (r : SAMRecord) : ContigNode :=
  { id := r.mrnm, sense := r.isReverse == r.isMateReverse }

/-- The iteration order of `std::map<ContigNode, AlignPairVec>`: ascending
`ContigNode` index. -/
def nodeLe (a b : ContigNode) : Prop :=
  a.index ≤ b.index

instance : DecidableRel nodeLe := by
  intro a b
  unfold nodeLe
  infer_instance

instance : IsTotal ContigNode nodeLe := by
  constructor
  intro a b
  unfold nodeLe
  omega

instance : IsTrans ContigNode nodeLe := by
  constructor
  intro a b c
  unfold nodeLe
  omega

/-- One side of `dataMap` in `writeEstimates` (lines 184-190): the records
of the batch whose `isReverse` flag equals `side`, grouped by map key and
listed in ascending key order, each group keeping stream order. -/
def groupsOf (side : Bool) (batch : List SAMRecord) :
    List (ContigNode × List SAMRecord) :=
  let rs := batch.filter (fun r => r.isReverse == side)
  let keys := (List.insertionSort nodeLe (rs.map keyOf)).destutter
    (fun a b => a ≠ b)
  keys.map (fun k => (k, rs.filter (fun r => keyOf r = k)))

/-- One token of the adjacency-format output line: the leading anchor
contig name, the sense delimiter (the literal text of two characters,
a space and a semicolon, written between the forward-sense and the
reverse-sense links), or one rendered estimate. -/
inductive OutTok where
  | name (id : Nat)
  | delim
  | est (e : Estimate)
deriving DecidableEq

/-- One unit written to the primary output stream: a whole adjacency-format
line, or one dot-format edge. -/
inductive Output where
  | adjLine (toks : List OutTok)
  | dotEdge (src : ContigNode) (e : Estimate)
deriving DecidableEq

/-- `writeEstimates` (lines 169-207) as a pure function over one closed
batch: the units written to the primary output stream paired with the
warnings written to the diagnostic stream.  A batch whose anchor contig
is shorter than the seed length produces nothing (line 177); otherwise
the records are partitioned into `dataMap` by anchor strand and map key,
and each group is handed to `writeEstimate`, the side `sense0 XOR rf`
being traversed for anchor sense `sense0` (line 195). -/
def writeEstimates (cfg : Config) (mle : MLEFn) (pdf : PDF)
    (lengthVec : List Nat) (batch : List SAMRecord) :
    List Output × List Warning :=
  match batch with
  | [] => ([], [])
  | p0 :: _ =>
    let id0 := p0.rname
    let len0 := lengthVec.getD id0 0
    if len0 < cfg.seedLen then ([], [])
    else
      let res := fun (sense0 : Bool) =>
        (groupsOf (xor sense0 cfg.rf) batch).map (fun g =>
          writeEstimate cfg mle { id := id0, sense := sense0 } g.1
            len0 (lengthVec.getD g.1.id 0) g.2 pdf)
      let warns := ((res false).filterMap (fun p => p.2))
        ++ ((res true).filterMap (fun p => p.2))
      if cfg.dot then
        ((((res false).filterMap (fun p => p.1)).map
            (Output.dotEdge { id := id0, sense := false }))
          ++ (((res true).filterMap (fun p => p.1)).map
            (Output.dotEdge { id := id0, sense := true })), warns)
      else
        ([Output.adjLine (OutTok.name id0 ::
            (((res false).filterMap (fun p => p.1)).map OutTok.est
              ++ OutTok.delim ::
                (((res true).filterMap (fun p => p.1)).map OutTok.est)))],
          warns)

/-- Modelled from the spec: the fragment-size histogram (`Histogram.h` is
external to the source file), a finite map from integer bin keys to
sample counts, represented as a list of key-count pairs. -/
abbrev Histogram := List (Int × Nat)

/-- Modelled from the spec: the arithmetic range-count query
`Histogram::count(lo, hi)` — the number of samples whose key lies in the
inclusive range from `lo` to `hi`. -/
def Histogram.count (h : Histogram) (lo hi : Int) : Nat :=
  ((h.filter (fun p => decide (lo ≤ p.1 ∧ p.1 ≤ hi))).map (fun p => p.2)).sum

/-- Modelled from the spec: `Histogram::negate`, which mirrors every bin,
mapping a bin with key `v` to key `-v`. -/
def Histogram.negate (h : Histogram) : Histogram :=
  h.map (fun p => (-p.1, p.2))

/-- Modelled from the spec: `Histogram::eraseNegative`, which erases every
bin whose key is negative. -/
def Histogram.eraseNegative (h : Histogram) : Histogram :=
  h.filter (fun p => decide (0 ≤ p.1))

/-- The ascending key order of the histogram map. -/
def binLe (a b : Int × Nat) : Prop :=
  a.1 ≤ b.1

instance : DecidableRel binLe := by
  intro a b
  unfold binLe
  infer_instance

instance : IsTotal (Int × Nat) binLe := by
  constructor
  intro a b
  unfold binLe
  omega

instance : IsTrans (Int × Nat) binLe := by
  constructor
  intro a b c
  unfold binLe
  omega

/-- Modelled from the spec: the upper-tail pass of
`Histogram::trimFraction` — walking the bins from the largest key down,
drop bins while the mass dropped so far stays within the budget. -/
def dropTail (budget : Rat) : List (Int × Nat) → List (Int × Nat)
  | [] => []
  | p :: t => if (p.2 : Rat) ≤ budget then dropTail (budget - p.2) t else p :: t

/-- Modelled from the spec: `Histogram::trimFraction f`, which removes at
most the fraction `f` of the total mass from the extreme tail of the
distribution. -/
def Histogram.trimFraction (h : Histogram) (f : Rat) : Histogram :=
  let total : Nat := ((h.map (fun p => p.2)).sum)
  (dropTail (f * total) (List.insertionSort binLe h).reverse).reverse

/-- The Library Orientation Detector condition of `main`
(lines 352-362): the histogram mass with keys from `INT_MIN` to 0 is
`numRF`, the mass with keys from 1 to `INT_MAX` is `numFR`, and the
library is reverse-forward when `numFR < numRF`. -/
def detectRF (hist : Histogram) : Bool :=
  decide (Histogram.count hist 1 intMax < Histogram.count hist intMin 0)

/-- The histogram after orientation normalization (lines 362-367): negated
exactly when the reverse-forward condition holds. -/
def normalizedHist (hist : Histogram) : Histogram :=
  if detectRF hist then Histogram.negate hist else hist

/-- The distribution handed to the Empirical Distribution Builder
(lines 369-370): orientation normalization, then erasure of negative
keys, then trimming of the fraction 0.0001 of the mass. -/
def builtDist (hist : Histogram) : Histogram :=
  Histogram.trimFraction (Histogram.eraseNegative (normalizedHist hist))
    ((1 : Rat) / 10000)

/-- The record-level filter of the reading loop of `main` (lines 398-400):
a record is dropped when it is unmapped, its mate is unmapped, it is not
paired, its anchor and mate contigs coincide, or its mapping quality is
below the configured minimum. -/
def dropRecord (minMapQ : Nat) (r : SAMRecord) : Bool :=
  r.isUnmapped || r.isMateUnmapped || !r.isPaired || r.rname == r.mrnm
    || decide (r.mapq < minMapQ)

/-- The result of consuming the whole alignment stream: the list of closed
batches in stream order, a fatal sortedness error naming the offending
anchor id, or the assertion failure on an empty record section
(line 386). -/
inductive StreamResult where
  | ok (batches : List (List SAMRecord))
  | sortError (id : Nat)
  | noInput
deriving DecidableEq

/-- The batch-building loop of `main` (lines 387-431), sequentially: `seen`
is the set of anchor ids already closed as batch heads, `front` the first
record of the current batch (`pairs.front()`), `batch` the current batch.
A record sharing the anchor of `front` is appended; a record with a new
anchor id closes the current batch, after the sortedness check against
`seen` (lines 413-419); filtered records are skipped (lines 398-401);
end of stream closes the final batch. -/
def runBatches (minMapQ : Nat) (seen : List Nat) (front : SAMRecord)
    (batch : List SAMRecord) : List SAMRecord → StreamResult
  | [] => StreamResult.ok [batch]
  | sam :: rest =>
    if dropRecord minMapQ sam then runBatches minMapQ seen front batch rest
    else if sam.rname = front.rname then
      runBatches minMapQ seen front (batch ++ [sam]) rest
    else if sam.rname ∈ seen then StreamResult.sortError sam.rname
    else
      match runBatches minMapQ (sam.rname :: seen) sam [sam] rest with
      | StreamResult.ok bs => StreamResult.ok (batch :: bs)
      | e => e

/-- The whole record-section processing of `main`: the first record of the
stream is read directly into `pairs` before the loop begins
(lines 384-385), and the loop then builds the batches.  The result is the
list of closed batches handed to `writeEstimates`, in stream order. -/
def processStream (minMapQ : Nat) : List SAMRecord → StreamResult
  | [] => StreamResult.noInput
  | r :: rest => runBatches minMapQ [] r [r] rest

/-- A forward-sense anchor identity used in concrete runs. -/
def node0 : ContigNode := { id := 0, sense := false }

/-- A forward-sense mate identity used in concrete runs. -/
def node1 : ContigNode := { id := 1, sense := false }

/-- A concrete empirical distribution for concrete runs. -/
def pdf0 : PDF := { maxIdx := 600, sampleStdDev := fun _ => 0 }

/-- A concrete external search that always reports three agreeing pairs. -/
def mleZero : MLEFn := fun _ _ _ _ _ _ _ => (0, 3)

/-- A concrete external search that always reports no valid maximum. -/
def mleNoMax : MLEFn := fun _ _ _ _ _ _ _ => noValidMaximum

/-- A well-formed record anchored at contig 0 with mate contig 1. -/
def rec0 : SAMRecord :=
  { rname := 0, mrnm := 1, mapq := 30, isPaired := true, isUnmapped := false
    isMateUnmapped := false, isReverse := false, isMateReverse := true
    targetAtQueryStart := 10, mateTargetAtQueryStart := 20 }

/-- A well-formed record anchored at contig 1 with mate contig 0. -/
def rec1 : SAMRecord := { rec0 with rname := 1, mrnm := 0 }

/-- A well-formed record anchored at contig 2. -/
def rec2 : SAMRecord := { rec0 with rname := 2, mrnm := 0 }

/-- A second well-formed record anchored at contig 0, distinct from
`rec0`. -/
def rec0b : SAMRecord := { rec0 with targetAtQueryStart := 30 }

/-- A second well-formed record anchored at contig 1, distinct from
`rec1`. -/
def rec1b : SAMRecord := { rec1 with targetAtQueryStart := 30 }

/-- A record whose mapping quality 0 is below the default minimum 1, so
the record-level filter matches it. -/
def recBad : SAMRecord := { rec0 with mapq := 0 }

/-- A concrete configuration: minimum two pairs, verbosity 2, adjacency
output, forward-reverse orientation. -/
def cfg1 : Config :=
  { k := 20, npairs := 2, seedLen := 0, minMapQ := 1, rf := false
    dot := false, verbose := 2 }

/-- The concrete configuration `cfg1` with minimum one pair. -/
def cfgN1 : Config := { cfg1 with npairs := 1 }

/-- The concrete configuration `cfg1` with seed length 10. -/
def cfgShort : Config := { cfg1 with seedLen := 10 }

/-- A concrete raw histogram with more negative-keyed than positive-keyed
mass. -/
def histW : Histogram := [(-3, 5), (2, 1)]

/-- Unfolding lemma for `estimateDistance`, exposing the threshold test and
the two outcomes. -/
theorem estimateDistance_eq (cfg : Config) (mle : MLEFn) (len0 len1 : Nat)
    (pairs : List SAMRecord) (pdf : PDF) :
    estimateDistance cfg mle len0 len1 pairs pdf =
      if (dedup (fragmentsOf cfg.rf len0 len1 pairs)).length < cfg.npairs then
        (intMin, (dedup (fragmentsOf cfg.rf len0 len1 pairs)).length)
      else
        mle (-(cfg.k : Int) + 1) pdf.maxIdx
          ((dedup (fragmentsOf cfg.rf len0 len1 pairs)).map
            (fun p => p.2 - p.1))
          pdf len0 len1 (dedup (fragmentsOf cfg.rf len0 len1 pairs)).length :=
  rfl

/-- Unfolding lemma for `writeEstimate`, exposing the raw-count early
return, the written estimate, and the warning. -/
theorem writeEstimate_eq (cfg : Config) (mle : MLEFn) (id0 id1 : ContigNode)
    (len0 len1 : Nat) (pairs : List SAMRecord) (pdf : PDF) :
    writeEstimate cfg mle id0 id1 len0 len1 pairs pdf =
      if pairs.length < cfg.npairs then (none, none)
      else if cfg.npairs ≤ (estimateDistance cfg mle len0 len1 pairs pdf).2 then
        (some (if cfg.dot && id0.sense then
            { contig := id1.flip
              distance := (estimateDistance cfg mle len0 len1 pairs pdf).1
              numPairs := (estimateDistance cfg mle len0 len1 pairs pdf).2
              stdDev := pdf.sampleStdDev
                (estimateDistance cfg mle len0 len1 pairs pdf).2 }
          else
            { contig := id1
              distance := (estimateDistance cfg mle len0 len1 pairs pdf).1
              numPairs := (estimateDistance cfg mle len0 len1 pairs pdf).2
              stdDev := pdf.sampleStdDev
                (estimateDistance cfg mle len0 len1 pairs pdf).2 }), none)
      else if 1 < cfg.verbose then
        (none, some { id0 := id0, id1 := id1
                      numPairs := (estimateDistance cfg mle len0 len1 pairs pdf).2
                      rawPairs := pairs.length })
      else (none, none) :=
  rfl

/-- C1: for every alignment record converted by the Fragment Model with
anchor length `len0`, mate length `len1`, anchor-relative query start
`a0` and mate-relative query start `a1`, the anchor coordinate is
reflected to `len0 - a0` exactly when the anchor alignment is reverse,
the mate coordinate is reflected to `len1 - a1` exactly when the mate
alignment is forward, and the resulting fragment observation is
`(a1, len1 + a0)` under the reverse-forward flag and `(a0, len0 + a1)`
otherwise. -/
theorem fragment_model_conversion (rf : Bool) (len0 len1 : Nat)
    (pairs : List SAMRecord) :
    fragmentsOf rf len0 len1 pairs = pairs.map (fun r =>
      let a0 : Int :=
        if r.isReverse then (len0 : Int) - r.targetAtQueryStart
        else r.targetAtQueryStart
      let a1 : Int :=
        if r.isMateReverse then r.mateTargetAtQueryStart
        else (len1 : Int) - r.mateTargetAtQueryStart
      if rf then (a1, (len1 : Int) + a0) else (a0, (len0 : Int) + a1)) := by
  unfold fragmentsOf
  apply List.map_congr_left
  intro r _
  unfold toFragment
  cases hm : r.isMateReverse <;> cases hv : r.isReverse <;> simp [hm, hv]

/-- C5: whenever the deduplicated fragment list of a group is shorter than
the configured minimum number of pairs, the estimator returns the invalid
sentinel `INT_MIN` together with the distinct count, whatever the
external maximum-likelihood search is — so the search is not consulted,
and the distinct count is still reported through the out-parameter. -/
theorem estimate_below_min (cfg : Config) (mle : MLEFn) (len0 len1 : Nat)
    (pairs : List SAMRecord) (pdf : PDF)
    (h : (dedup (fragmentsOf cfg.rf len0 len1 pairs)).length < cfg.npairs) :
    estimateDistance cfg mle len0 len1 pairs pdf =
      (intMin, (dedup (fragmentsOf cfg.rf len0 len1 pairs)).length) := by
  rw [estimateDistance_eq, if_pos h]

/-- Witness for C5 at a concrete input: one record gives one distinct
fragment, below the minimum of two, so the estimate is the sentinel and
the reported count is 1. -/
theorem estimate_below_min_witness :
    estimateDistance cfg1 mleZero 100 100 [rec0] pdf0 = (intMin, 1) := by
  rw [estimate_below_min cfg1 mleZero 100 100 [rec0] pdf0 (by decide)]
  decide

/-- C8: the deduplication step of `estimateDistance` — sorting the fragment
list and erasing adjacent equal pairs — is idempotent. -/
theorem dedup_idempotent (l : List (Int × Int)) : dedup (dedup l) = dedup l := by
  unfold dedup
  have hs : ((List.insertionSort fragLe l).destutter
      (fun a b => a ≠ b)).Sorted fragLe :=
    List.Pairwise.sublist (List.destutter_sublist _ _)
      (List.sorted_insertionSort fragLe l)
  rw [List.Sorted.insertionSort_eq hs, List.destutter_idem]

/-- C2 (the code at the failing input): a stream whose first anchor 0
closes and then reappears is accepted — the run ends with three batches
and no sortedness error, because the first anchor of the stream is never
entered into the `seen` registry; a reappearing non-first anchor 1 is
detected as claimed. -/
theorem sorted_check_misses_first_anchor :
    processStream 1 [rec0, rec1, rec0b] =
      StreamResult.ok [[rec0], [rec1], [rec0b]] ∧
    processStream 1 [rec0, rec1, rec2, rec1b] = StreamResult.sortError 1 := by
  decide

/-- C4 (the code at the failing input): a record whose mapping quality is
below the threshold is matched by the record-level filter, yet when it is
the very first record of the stream it joins the first batch all the
same; the same record is dropped silently anywhere later in the
stream. -/
theorem first_record_skips_filters :
    dropRecord 1 recBad = true ∧
    processStream 1 [recBad] = StreamResult.ok [[recBad]] ∧
    processStream 1 [rec0, recBad] = StreamResult.ok [[rec0]] := by
  decide

/-- C6: whenever the external maximum-likelihood search answers with its
no-valid-maximum sentinel on the arguments `estimateDistance` passes it,
the caller treats the estimate as invalid and the link is not written to
the primary output, provided the configured minimum number of pairs is
positive (the option parser rejects zero). -/
theorem sentinel_not_written (cfg : Config) (mle : MLEFn) (id0 id1 : ContigNode)
    (len0 len1 : Nat) (pairs : List SAMRecord) (pdf : PDF)
    (hn : 0 < cfg.npairs)
    (hm : mle (-(cfg.k : Int) + 1) pdf.maxIdx
        ((dedup (fragmentsOf cfg.rf len0 len1 pairs)).map (fun p => p.2 - p.1))
        pdf len0 len1 (dedup (fragmentsOf cfg.rf len0 len1 pairs)).length
      = noValidMaximum) :
    (writeEstimate cfg mle id0 id1 len0 len1 pairs pdf).1 = none := by
  have hlt : (estimateDistance cfg mle len0 len1 pairs pdf).2 < cfg.npairs := by
    rw [estimateDistance_eq]
    by_cases h1 : (dedup (fragmentsOf cfg.rf len0 len1 pairs)).length < cfg.npairs
    · rw [if_pos h1]
      exact h1
    · rw [if_neg h1, hm]
      exact hn
  rw [writeEstimate_eq]
  by_cases h0 : pairs.length < cfg.npairs
  · rw [if_pos h0]
  · rw [if_neg h0, if_neg (by omega)]
    by_cases hv : 1 < cfg.verbose
    · rw [if_pos hv]
    · rw [if_neg hv]

/-- Witness for C6 at a concrete input: with minimum one pair, one good
record and a search that reports no valid maximum, nothing reaches the
primary output. -/
theorem sentinel_not_written_witness :
    (writeEstimate cfgN1 mleNoMax node0 node1 100 100 [rec0] pdf0).1 = none :=
  sentinel_not_written cfgN1 mleNoMax node0 node1 100 100 [rec0] pdf0
    (by decide) (by decide)

/-- C7 counterexample: a group of one record under a minimum of two, at
verbosity 2, is omitted from the primary output but produces no warning
either — `writeEstimate` returns before the warning branch when the raw
record count is already below the minimum, contradicting the claim that
every below-threshold group is warned about at verbosity above 1. -/
theorem warning_not_emitted_for_raw_below_min :
    ([rec0] : List SAMRecord).length < cfg1.npairs ∧ 1 < cfg1.verbose ∧
    writeEstimate cfg1 mleZero node0 node1 100 100 [rec0] pdf0 =
      (none, none) := by
  decide

/-- C7 amended: for every group whose agreeing-pair count ends up below the
minimum, the link is omitted from the primary output; the non-fatal
warning naming the two contigs and the pair counts is written exactly
when, in addition, the raw record count of the group reaches the minimum
and the verbosity exceeds 1 — a group whose raw count is already below
the minimum is dropped silently. -/
theorem below_min_link_omitted (cfg : Config) (mle : MLEFn)
    (id0 id1 : ContigNode) (len0 len1 : Nat) (pairs : List SAMRecord)
    (pdf : PDF)
    (hlow : (estimateDistance cfg mle len0 len1 pairs pdf).2 < cfg.npairs) :
    (writeEstimate cfg mle id0 id1 len0 len1 pairs pdf).1 = none ∧
    (writeEstimate cfg mle id0 id1 len0 len1 pairs pdf).2 =
      (if cfg.npairs ≤ pairs.length ∧ 1 < cfg.verbose then
        some { id0 := id0, id1 := id1
               numPairs := (estimateDistance cfg mle len0 len1 pairs pdf).2
               rawPairs := pairs.length }
      else none) := by
  rw [writeEstimate_eq]
  by_cases h0 : pairs.length < cfg.npairs
  · rw [if_pos h0, if_neg (by omega)]
    exact ⟨rfl, rfl⟩
  · rw [if_neg h0, if_neg (by omega)]
    by_cases hv : 1 < cfg.verbose
    · rw [if_pos hv, if_pos ⟨by omega, hv⟩]
      exact ⟨rfl, rfl⟩
    · rw [if_neg hv, if_neg (by omega)]
      exact ⟨rfl, rfl⟩

/-- Witness for the amended C7 at a concrete input: two identical records
collapse to one distinct fragment, below the minimum of two, so with
verbosity 2 the link is omitted and the warning carries the counts 1
of 2. -/
theorem below_min_link_omitted_witness :
    (writeEstimate cfg1 mleZero node0 node1 100 100 [rec0, rec0] pdf0).1 =
      none ∧
    (writeEstimate cfg1 mleZero node0 node1 100 100 [rec0, rec0] pdf0).2 =
      (if cfg1.npairs ≤ ([rec0, rec0] : List SAMRecord).length ∧
          1 < cfg1.verbose then
        some { id0 := node0, id1 := node1
               numPairs :=
                 (estimateDistance cfg1 mleZero 100 100 [rec0, rec0] pdf0).2
               rawPairs := ([rec0, rec0] : List SAMRecord).length }
      else none) :=
  below_min_link_omitted cfg1 mleZero node0 node1 100 100 [rec0, rec0] pdf0
    (by decide)

/-- Membership in the output of the upper-tail trim pass implies membership
in its input. -/
theorem mem_of_mem_dropTail {p : Int × Nat} :
    ∀ {l : List (Int × Nat)} {b : Rat}, p ∈ dropTail b l → p ∈ l := by
  intro l
  induction l with
  | nil =>
    intro b h
    exact absurd h (by simp [dropTail])
  | cons q t ih =>
    intro b h
    unfold dropTail at h
    by_cases hc : ((q.2 : Rat) ≤ b)
    · rw [if_pos hc] at h
      exact List.mem_cons_of_mem q (ih h)
    · rw [if_neg hc] at h
      exact h

/-- Every bin of a trimmed histogram is a bin of the histogram. -/
theorem mem_of_mem_trimFraction {p : Int × Nat} {h : Histogram} {f : Rat}
    (hp : p ∈ Histogram.trimFraction h f) : p ∈ h := by
  unfold Histogram.trimFraction at hp
  rw [List.mem_reverse] at hp
  have hm := mem_of_mem_dropTail hp
  rw [List.mem_reverse] at hm
  rwa [List.mem_insertionSort] at hm

/-- C3: loading the fragment-size histogram counts the mass with keys at
most 0 and the mass with keys at least 1; the process-wide
reverse-forward flag is set if and only if the second count is smaller
than the first, in which case (and only in that case) the histogram is
replaced by its negation; and after the negative-key erasure and the
tail trimming the distribution used for estimation has no negative
key. -/
theorem orientation_detection (hist : Histogram)
    (hk : ∀ p ∈ hist, intMin ≤ p.1 ∧ p.1 ≤ intMax) :
    (detectRF hist = true ↔
      ((hist.filter (fun p => decide (1 ≤ p.1))).map (fun p => p.2)).sum <
        ((hist.filter (fun p => decide (p.1 ≤ 0))).map (fun p => p.2)).sum) ∧
    (detectRF hist = true → normalizedHist hist = Histogram.negate hist) ∧
    (detectRF hist = false → normalizedHist hist = hist) ∧
    (∀ p ∈ builtDist hist, 0 ≤ p.1) := by
  have hle : hist.filter (fun p => decide (intMin ≤ p.1 ∧ p.1 ≤ 0)) =
      hist.filter (fun p => decide (p.1 ≤ 0)) := by
    apply List.filter_congr
    intro p hp
    have h1 := (hk p hp).1
    simp only [decide_eq_decide]
    exact ⟨fun hh => hh.2, fun hh => ⟨h1, hh⟩⟩
  have hge : hist.filter (fun p => decide (1 ≤ p.1 ∧ p.1 ≤ intMax)) =
      hist.filter (fun p => decide (1 ≤ p.1)) := by
    apply List.filter_congr
    intro p hp
    have h2 := (hk p hp).2
    simp only [decide_eq_decide]
    exact ⟨fun hh => hh.1, fun hh => ⟨hh, h2⟩⟩
  refine ⟨?_, ?_, ?_, ?_⟩
  · unfold detectRF Histogram.count
    rw [hle, hge]
    simp only [decide_eq_true_eq]
  · intro hd
    simp [normalizedHist, hd]
  · intro hd
    simp [normalizedHist, hd]
  · intro p hp
    have hm := mem_of_mem_trimFraction hp
    unfold Histogram.eraseNegative at hm
    rw [List.mem_filter] at hm
    exact of_decide_eq_true hm.2

/-- Witness for C3 at a concrete input: the raw histogram `histW` has mass
5 on key -3 and mass 1 on key 2, so the detector reports reverse-forward
and the histogram is negated. -/
theorem orientation_detection_witness :
    detectRF histW = true ∧ normalizedHist histW = Histogram.negate histW :=
  ⟨by decide, (orientation_detection histW (by decide)).2.1 (by decide)⟩

/-- C10: in adjacency output format, a closed batch whose anchor contig
length reaches the seed-length threshold writes exactly one line, whose
first token is the anchor contig name and which contains the sense
delimiter token, even when the batch yields no valid link; a batch whose
anchor length is below the threshold writes nothing at all. -/
theorem adjacency_line_shape (cfg : Config) (mle : MLEFn) (pdf : PDF)
    (lengthVec : List Nat) (p0 : SAMRecord) (rest : List SAMRecord)
    (hdot : cfg.dot = false) :
    (cfg.seedLen ≤ lengthVec.getD p0.rname 0 →
      ∃ toks, (writeEstimates cfg mle pdf lengthVec (p0 :: rest)).1 =
          [Output.adjLine (OutTok.name p0.rname :: toks)] ∧
        OutTok.delim ∈ toks) ∧
    (lengthVec.getD p0.rname 0 < cfg.seedLen →
      (writeEstimates cfg mle pdf lengthVec (p0 :: rest)).1 = []) := by
  constructor
  · intro hs
    have hns : ¬ lengthVec.getD p0.rname 0 < cfg.seedLen := by omega
    simp only [writeEstimates, if_neg hns, hdot, Bool.false_eq_true, if_false]
    exact ⟨_, rfl, List.mem_append_right _ (List.mem_cons_self _ _)⟩
  · intro hs
    simp only [writeEstimates, if_pos hs]

/-- Witness for C10 at concrete inputs: a one-record batch anchored at
contig 0, of length 5, writes the single line of an anchor-name token
followed by the delimiter when the seed length is 0, and nothing when
the seed length is 10. -/
theorem adjacency_line_shape_witness :
    (writeEstimates cfg1 mleZero pdf0 [5, 7] [rec0]).1 =
      [Output.adjLine [OutTok.name 0, OutTok.delim]] ∧
    (writeEstimates cfgShort mleZero pdf0 [5, 7] [rec0]).1 = [] :=
  ⟨by decide,
    (adjacency_line_shape cfgShort mleZero pdf0 [5, 7] rec0 [] rfl).2
      (by decide)⟩

end DistanceEst
